import Mathlib

/-!
Shallow embedding of `src/fetch_fred_data.py`, the per-series fetch → clean →
export pipeline (`get_fred_series_and_export_csv`).

Modelling conventions:
* Machine I/O (HTTP request, JSON decoding) is modelled by a `Response`
  environment: a transport failure stands for `requests.exceptions.RequestException`
  (including `raise_for_status`), a JSON failure for the `ValueError` raised by
  `response.json()`, and `otherFailure` for any other exception raised while the
  series is processed.  A successful response carries the parsed payload: the
  `observations` member, absent (`none`) when the key is missing.
* `pd.to_datetime` is modelled for the upstream's `YYYY-MM-DD` date format,
  including the nanosecond `Timestamp` range check (out-of-range raises, like an
  unparseable date, a `ValueError`).  On success it renders back to the same
  `YYYY-MM-DD` text, which is what `to_csv` emits for midnight timestamps.
* `pd.to_numeric(..., errors="coerce")` is modelled by `parseNumeric`: decimal
  literals with optional sign, fraction and exponent parse to an exact decimal
  `PNum`; anything else (e.g. the sentinel ".") coerces to `none`, the missing
  marker (pandas `NaN`).  Column rendering follows pandas dtype inference:
  a column whose every raw value is an integer literal is written as int64
  (`3` → `3`), otherwise as float64 (`3` → `3.0`, `3.50` → `3.5`, missing → "").
  The float rendering is the exact decimal value with trailing zeros removed;
  this agrees with the shortest-round-trip double rendering pandas uses on all
  values of ordinary magnitude and precision.
* The filesystem is a map from path to content; `df.to_csv(filename, index=False)`
  is one write of the rendered text, minimally quoted (`csv.QUOTE_MINIMAL`).
-/

namespace FredFetch

/-- One record of the `observations` array of the FRED JSON payload.  The two
record-validity metadata fields may be present or absent. -/
structure Obs where
  date : String
  value : String
  realtime_start : Option String := none
  realtime_end : Option String := none
deriving Repr, DecidableEq

/-- Outcome of the HTTP-and-JSON stage for one series, as seen by the `try`
block: a transport error (`requests.exceptions.RequestException`), a JSON
decoding error (`ValueError`), some other unexpected exception, or a parsed
payload whose `observations` member is `none` when the key is missing. -/
inductive Response where
  | transportError (msg : String)
  | jsonError (msg : String)
  | otherFailure (msg : String)
  | payload (observations : Option (List Obs))
deriving Repr, DecidableEq

/-! ### Numeric coercion (`pd.to_numeric(..., errors="coerce")`) -/

/-- Exact decimal number produced by numeric coercion: value is
`(-1)^neg * m / 10^e`; `intForm` records that the literal was integer-shaped
(no decimal point, no exponent), which drives pandas int64/float64 dtype
inference for the column. -/
structure PNum where
  intForm : Bool
  neg : Bool
  m : Nat
  e : Nat
deriving Repr, DecidableEq

def digitsVal (ds : List Char) : Nat :=
  ds.foldl (fun a c => a * 10 + (c.toNat - 48)) 0

def takeDigits : List Char → List Char × List Char
  | [] => ([], [])
  | c :: cs =>
    if c.isDigit then
      let (d, r) := takeDigits cs
      (c :: d, r)
    else ([], c :: cs)

def parseSign : List Char → Bool × List Char
  | '-' :: cs => (true, cs)
  | '+' :: cs => (false, cs)
  | cs => (false, cs)

/-- Parse the optional exponent suffix; `some k` is the exponent (0 when the
suffix is absent), `none` a malformed tail. -/
def parseExp : List Char → Option Int
  | [] => some 0
  | c :: cs =>
    if c == 'e' || c == 'E' then
      let (neg, cs1) := parseSign cs
      let (ds, rest) := takeDigits cs1
      if ds.isEmpty || !rest.isEmpty then none
      else some (if neg then -(digitsVal ds : Int) else (digitsVal ds : Int))
    else none

/-- Fold an exponent `k` into the fractional scale: value `m/10^e0 * 10^k`
as `(m', e')` with `e' : Nat`. -/
def applyExp (m e0 : Nat) (k : Int) : Nat × Nat :=
  let e1 : Int := (e0 : Int) - k
  if 0 ≤ e1 then (m, e1.toNat) else (m * 10 ^ (-e1).toNat, 0)

def trimChars (cs : List Char) : List Char :=
  ((cs.dropWhile Char.isWhitespace).reverse.dropWhile Char.isWhitespace).reverse

/-- `pd.to_numeric(s, errors="coerce")` on one raw value string: `none` is the
missing marker (NaN).  Accepts optionally signed decimal literals with an
optional fraction and exponent, surrounded by optional whitespace; everything
else — in particular the FRED missing-value sentinel "." — coerces to `none`. -/
def parseNumeric (s : String) : Option PNum :=
  let cs := trimChars s.toList
  let (neg, cs1) := parseSign cs
  let (ip, cs2) := takeDigits cs1
  match cs2 with
  | '.' :: cs3 =>
    let (fp, cs4) := takeDigits cs3
    if ip.isEmpty && fp.isEmpty then none
    else
      match parseExp cs4 with
      | none => none
      | some k =>
        let me := applyExp (digitsVal (ip ++ fp)) fp.length k
        some ⟨false, neg, me.1, me.2⟩
  | rest =>
    if ip.isEmpty then none
    else
      match rest, parseExp rest with
      | [], _ => some ⟨true, neg, digitsVal ip, 0⟩
      | _, none => none
      | _, some k =>
        let me := applyExp (digitsVal ip) 0 k
        some ⟨false, neg, me.1, me.2⟩

/-! ### Date parsing (`pd.to_datetime` on `YYYY-MM-DD` strings) -/

def isLeap (y : Nat) : Bool :=
  (y % 4 == 0 && y % 100 != 0) || y % 400 == 0

def daysInMonth (y m : Nat) : Nat :=
  if m == 2 then (if isLeap y then 29 else 28)
  else if m == 4 || m == 6 || m == 9 || m == 11 then 30
  else 31

/-- Nanosecond `pd.Timestamp` representable range (out-of-range dates raise
`OutOfBoundsDatetime`, a `ValueError`). -/
def inTimestampRange (y m d : Nat) : Bool :=
  (y > 1677 || (y == 1677 && (m > 9 || (m == 9 && d ≥ 22)))) &&
  (y < 2262 || (y == 2262 && (m < 4 || (m == 4 && d ≤ 11))))

def validIsoDate (s : String) : Bool :=
  match s.toList with
  | [y1, y2, y3, y4, h1, m1, m2, h2, d1, d2] =>
    y1.isDigit && y2.isDigit && y3.isDigit && y4.isDigit &&
    h1 == '-' && h2 == '-' &&
    m1.isDigit && m2.isDigit && d1.isDigit && d2.isDigit &&
    (let y := digitsVal [y1, y2, y3, y4]
     let m := digitsVal [m1, m2]
     let d := digitsVal [d1, d2]
     1 ≤ m && m ≤ 12 && 1 ≤ d && d ≤ daysInMonth y m && inTimestampRange y m d)
  | _ => false

/-- `pd.to_datetime` on one date string, composed with the `to_csv` rendering
of the resulting midnight timestamp (which is the original `YYYY-MM-DD` text):
`none` models the `ValueError` that aborts the series. -/
def parseDate (s : String) : Option String :=
  if validIsoDate s then some s else none

/-! ### Cleaning and CSV rendering -/

/-- Lines 56–57 of the source: convert the date column (any bad date raises,
failing the whole series) and coerce the value column, keeping every row. -/
def cleanObs : List Obs → Option (List (String × Option PNum))
  | [] => some []
  | o :: rest =>
    match parseDate o.date, cleanObs rest with
    | some d, some rows => some ((d, parseNumeric o.value) :: rows)
    | _, _ => none

/-- `df["value"].isna().sum()`: the per-series count of missing values. -/
def missingCount (rows : List (String × Option PNum)) : Nat :=
  (rows.filter (fun r => r.2.isNone)).length

def renderInt (p : PNum) : String :=
  (if p.neg && p.m != 0 then "-" else "") ++ toString p.m

/-- Remove trailing zero fractional digits: `(350, 2)` (i.e. 3.50) → `(35, 1)`. -/
def stripZeros : Nat → Nat → Nat × Nat
  | m, 0 => (m, 0)
  | m, e + 1 => if m % 10 == 0 then stripZeros (m / 10) e else (m, e + 1)

/-- Float64 rendering of an exact decimal: minimal digits, at least one
fractional digit (`3` → `"3.0"`, `3.50` → `"3.5"`, `0.5` → `"0.5"`). -/
def renderFloat (p : PNum) : String :=
  let me := stripZeros p.m p.e
  let ds := (toString me.1).toList
  let ds := List.replicate (me.2 + 1 - ds.length) '0' ++ ds
  let ip := ds.take (ds.length - me.2)
  let fp := ds.drop (ds.length - me.2)
  (if p.neg then "-" else "") ++ String.mk ip ++ "." ++
    (if me.2 == 0 then "0" else String.mk fp)

/-- pandas dtype inference for the coerced value column: int64 (and int
rendering) iff every raw value was an integer literal; any missing value or
fractional/exponent literal makes the column float64, where missing renders
as an empty cell. -/
def renderValues (vs : List (Option PNum)) : List String :=
  if vs.all (fun v => match v with | some p => p.intForm | none => false) then
    vs.map (fun v => match v with | some p => renderInt p | none => "")
  else
    vs.map (fun v => match v with | some p => renderFloat p | none => "")

def escapeQuotes : List Char → List Char
  | [] => []
  | c :: cs =>
    if c == '"' then '"' :: '"' :: escapeQuotes cs else c :: escapeQuotes cs

/-- `csv.QUOTE_MINIMAL`: a field is quoted only when it contains a separator,
quote or line break. -/
def quoteField (s : String) : String :=
  if s.toList.any (fun c => c == ',' || c == '"' || c == '\n' || c == '\r') then
    "\"" ++ String.mk (escapeQuotes s.toList) ++ "\""
  else s

/-- `df.to_csv(filename, index=False)` text for the cleaned two-column table:
header `date,<series_id>` then one `date,value` line per row, no index column. -/
def csvContent (seriesId : String) (rows : List (String × Option PNum)) : String :=
  "date," ++ quoteField seriesId ++ "\n" ++
    String.join (List.zipWith
      (fun (r : String × Option PNum) v => quoteField r.1 ++ "," ++ quoteField v ++ "\n")
      rows (renderValues (rows.map Prod.snd)))

/-- Line 67 of the source:
`f"{data_folder}/{name.lower().replace(' ', '_')}.csv"` with
`data_folder = "data"` (ASCII lowering, as all catalog names are ASCII). -/
def csvPath (name : String) : String :=
  "data/" ++ String.mk (name.toList.map (fun c => if c == ' ' then '_' else c.toLower)) ++ ".csv"

/-! ### The per-series pipeline and the batch loop -/

/-- Result of one iteration of the loop, mirroring the print/skip/write paths
of lines 38–76 of the source. -/
inductive Outcome where
  | transportFailed (msg : String)
  | parseFailed (msg : String)
  | noObservations
  | emptyAfterCleaning
  | unexpectedFailed (msg : String)
  | written (path : String) (content : String) (rows : Nat)
deriving Repr, DecidableEq

/-- The body of the `for` loop for one series: the outcome together with the
amount added to `total_nas_found` at line 59. -/
def processSeries (name seriesId : String) (resp : Response) : Outcome × Nat :=
  match resp with
  | .transportError m => (.transportFailed m, 0)
  | .jsonError m => (.parseFailed m, 0)
  | .otherFailure m => (.unexpectedFailed m, 0)
  | .payload none => (.noObservations, 0)
  | .payload (some obs) =>
    if obs.isEmpty then (.noObservations, 0)
    else
      match cleanObs obs with
      | none => (.parseFailed "invalid date", 0)
      | some rows =>
        if rows.isEmpty then (.emptyAfterCleaning, missingCount rows)
        else (.written (csvPath name) (csvContent seriesId rows) rows.length,
          missingCount rows)

/-- The console line the loop prints for an outcome (apostrophes as `\x27`). -/
def logLine (seriesId : String) (o : Outcome) : String :=
  match o with
  | .transportFailed m =>
    "Error making API request for \x27" ++ seriesId ++ "\x27: " ++ m
  | .parseFailed m =>
    "Error parsing JSON or processing data for \x27" ++ seriesId ++ "\x27: " ++ m
  | .noObservations =>
    "No observations found for series ID: " ++ seriesId ++ " or response structure unexpected."
  | .emptyAfterCleaning =>
    "No valid numeric observations found for series ID: " ++ seriesId ++ " after cleaning."
  | .unexpectedFailed m =>
    "An unexpected error occurred for \x27" ++ seriesId ++ "\x27: " ++ m
  | .written path _ rows =>
    "Successfully retrieved and saved " ++ toString rows ++ " observations to " ++ path

/-- The final summary line printed after the loop. -/
def finalSummary (total : Nat) : String :=
  "Total number of NA values found across all fetched series: " ++ toString total

/-- The whole `for` loop of `get_fred_series_and_export_csv`: the environment
`env` gives each series id its upstream response; returns the per-series
outcomes in input order and the final `total_nas_found`. -/
def runBatch : List (String × String) → (String → Response) → List (String × Outcome) × Nat
  | [], _ => ([], 0)
  | it :: rest, env =>
    let r := processSeries it.1 it.2 (env it.2)
    let t := runBatch rest env
    ((it.1, r.1) :: t.1, r.2 + t.2)

/-- The files an outcome writes (at most the one `to_csv` call). -/
def outcomeWrites : Outcome → List (String × String)
  | .written p c _ => [(p, c)]
  | _ => []

/-- All filesystem writes of a batch run, in order. -/
def runWrites (series : List (String × String)) (env : String → Response) :
    List (String × String) :=
  ((runBatch series env).1.map (fun o => outcomeWrites o.2)).flatten

/-! ### Filesystem model -/

/-- A filesystem: path → file content. -/
def FS : Type := String → Option String

def fsWrite (fs : FS) (p c : String) : FS :=
  fun q => if q = p then some c else fs q

def applyWrites (fs : FS) (ws : List (String × String)) : FS :=
  ws.foldl (fun a w => fsWrite a w.1 w.2) fs

/-! ### Concrete data used by the witness theorems -/

def demoObs : List Obs :=
  [⟨"2020-01-01", "3.5", some "x", some "y"⟩, ⟨"2020-02-01", ".", none, none⟩]

def demoEnv : String → Response := fun _ => .payload (some demoObs)

def demoSeries : List (String × String) := [("Alpha Series", "AS1"), ("Beta Series", "BS2")]

/-! ### Helper lemmas -/

theorem parseDate_some {s t : String} (h : parseDate s = some t) : t = s := by
  unfold parseDate at h
  split at h
  · exact (Option.some.inj h).symm
  · exact absurd h (by simp)

theorem cleanObs_dates {obs : List Obs} (hd : ∀ o ∈ obs, (parseDate o.date).isSome) :
    cleanObs obs = some (obs.map fun o => (o.date, parseNumeric o.value)) := by
  induction obs with
  | nil => rfl
  | cons o rest ih =>
    obtain ⟨d, hdo⟩ := Option.isSome_iff_exists.mp (hd o (List.mem_cons_self _ _))
    have hds := parseDate_some hdo
    subst hds
    have hrest := ih (fun x hx => hd x (List.mem_cons_of_mem _ hx))
    simp only [cleanObs, hdo, hrest, List.map_cons]

theorem renderValues_length (vs : List (Option PNum)) :
    (renderValues vs).length = vs.length := by
  unfold renderValues
  split <;> simp

theorem missingCount_map (obs : List Obs) :
    missingCount (obs.map fun o => (o.date, parseNumeric o.value)) =
      (obs.filter (fun o => (parseNumeric o.value).isNone)).length := by
  unfold missingCount
  induction obs with
  | nil => rfl
  | cons o rest ih =>
    simp only [List.map_cons, List.filter_cons]
    by_cases h : (parseNumeric o.value).isNone = true
    · simp only [h, if_pos, List.length_cons]
      rw [ih]
    · simp only [h, if_neg, Bool.false_eq_true, not_false_iff]
      rw [ih]

theorem processSeries_clean (name seriesId : String) (obs : List Obs) (hne : obs ≠ [])
    (hd : ∀ o ∈ obs, (parseDate o.date).isSome) :
    processSeries name seriesId (.payload (some obs)) =
      (.written (csvPath name)
        (csvContent seriesId (obs.map fun o => (o.date, parseNumeric o.value)))
        obs.length,
       missingCount (obs.map fun o => (o.date, parseNumeric o.value))) := by
  cases obs with
  | nil => exact absurd rfl hne
  | cons o rest =>
    simp only [processSeries, List.isEmpty_cons, cleanObs_dates hd, List.map_cons,
      List.length_cons, List.length_map]
    rfl

theorem csvContent_map (seriesId : String) (obs : List Obs) :
    csvContent seriesId (obs.map fun o => (o.date, parseNumeric o.value)) =
      "date," ++ quoteField seriesId ++ "\n" ++
        String.join (List.zipWith
          (fun (o : Obs) v => quoteField o.date ++ "," ++ quoteField v ++ "\n")
          obs (renderValues (obs.map fun o => parseNumeric o.value))) := by
  unfold csvContent
  rw [List.map_map, List.zipWith_map_left]
  have hsnd : (Prod.snd ∘ fun o : Obs => (o.date, parseNumeric o.value)) =
      fun o : Obs => parseNumeric o.value := rfl
  rw [hsnd]

theorem runBatch_outcomes (series : List (String × String)) (env : String → Response) :
    (runBatch series env).1 =
      series.map (fun it => (it.1, (processSeries it.1 it.2 (env it.2)).1)) := by
  induction series with
  | nil => rfl
  | cons it rest ih => simp only [runBatch, List.map_cons, ih]

theorem runBatch_total (series : List (String × String)) (env : String → Response) :
    (runBatch series env).2 =
      (series.map (fun it => (processSeries it.1 it.2 (env it.2)).2)).sum := by
  induction series with
  | nil => rfl
  | cons it rest ih => simp only [runBatch, List.map_cons, List.sum_cons, ih]

theorem zipWith_diag {α γ : Type} (f : α → α → γ) (l : List α) :
    List.zipWith f l l = l.map fun a => f a a := by
  induction l with
  | nil => rfl
  | cons a l ih =>
    show f a a :: List.zipWith f l l = f a a :: l.map fun a => f a a
    rw [ih]

theorem renderValues_all_none (vs : List (Option PNum)) (hne : vs ≠ [])
    (h : ∀ v ∈ vs, v = none) : renderValues vs = vs.map fun _ => "" := by
  unfold renderValues
  have hall : (vs.all fun v => match v with | some p => p.intForm | none => false) = false := by
    cases vs with
    | nil => exact absurd rfl hne
    | cons v vs =>
      have hv := h v (List.mem_cons_self _ _)
      subst hv
      simp [List.all_cons]
  rw [hall]
  simp only [Bool.false_eq_true, if_false]
  exact List.map_congr_left (fun v hv => by rw [h v hv])

theorem applyWrites_untouched (fs : FS) (ws : List (String × String)) (q : String)
    (h : ∀ w ∈ ws, w.1 ≠ q) : applyWrites fs ws q = fs q := by
  induction ws generalizing fs with
  | nil => rfl
  | cons w ws ih =>
    show applyWrites (fsWrite fs w.1 w.2) ws q = fs q
    rw [ih _ (fun x hx => h x (List.mem_cons_of_mem _ hx))]
    unfold fsWrite
    exact if_neg (fun hq => h w (List.mem_cons_self _ _) hq.symm)

theorem applyWrites_congr (fs fs' : FS) (ws : List (String × String)) (q : String)
    (h : (∀ w ∈ ws, w.1 ≠ q) → fs q = fs' q) :
    applyWrites fs ws q = applyWrites fs' ws q := by
  induction ws generalizing fs fs' with
  | nil => exact h (by simp)
  | cons w ws ih =>
    show applyWrites (fsWrite fs w.1 w.2) ws q = applyWrites (fsWrite fs' w.1 w.2) ws q
    apply ih
    intro hws
    unfold fsWrite
    by_cases hq : q = w.1
    · simp [hq]
    · rw [if_neg hq, if_neg hq]
      refine h (fun x hx => ?_)
      rcases List.mem_cons.mp hx with h1 | h2
      · subst h1
        exact fun he => hq he.symm
      · exact hws x h2

/-! ### Claim theorems -/

/-- C1: for every series processed successfully (payload present, observations
non-empty, date cleaning succeeds), the written CSV has exactly the header row
`date,<series_id>` followed by one `date,value` line per retained observation
(no index column), and the `realtime_start`/`realtime_end` metadata fields
never influence the output: any values of those fields, including their
absence, give the same result, so they never appear in the file and their
absence causes no failure. -/
theorem csv_columns_rows_and_metadata (name seriesId : String) (obs : List Obs)
    (hne : obs ≠ []) (hd : ∀ o ∈ obs, (parseDate o.date).isSome) :
    processSeries name seriesId (.payload (some obs)) =
      (.written (csvPath name)
        ("date," ++ quoteField seriesId ++ "\n" ++
          String.join (List.zipWith
            (fun (o : Obs) v => quoteField o.date ++ "," ++ quoteField v ++ "\n")
            obs (renderValues (obs.map fun o => parseNumeric o.value))))
        obs.length,
       missingCount (obs.map fun o => (o.date, parseNumeric o.value))) ∧
    (renderValues (obs.map fun o => parseNumeric o.value)).length = obs.length ∧
    (∀ f g : Obs → Option String,
      processSeries name seriesId
          (.payload (some (obs.map fun o =>
            { o with realtime_start := f o, realtime_end := g o }))) =
        processSeries name seriesId (.payload (some obs))) := by
  refine ⟨?_, ?_, ?_⟩
  · rw [processSeries_clean name seriesId obs hne hd, csvContent_map]
  · rw [renderValues_length, List.length_map]
  · intro f g
    have hne2 : obs.map (fun o =>
        { o with realtime_start := f o, realtime_end := g o } : Obs → Obs) ≠ [] := by
      intro hmap
      exact hne (List.map_eq_nil_iff.mp hmap)
    have hd2 : ∀ o ∈ obs.map (fun o =>
        { o with realtime_start := f o, realtime_end := g o } : Obs → Obs),
        (parseDate o.date).isSome := by
      intro o ho
      obtain ⟨x, hx, hxo⟩ := List.mem_map.mp ho
      subst hxo
      exact hd x hx
    rw [processSeries_clean name seriesId _ hne2 hd2,
      processSeries_clean name seriesId obs hne hd]
    rw [List.map_map, List.length_map]
    rfl

/-- C1 witness: on a concrete two-observation series (one numeric value, one
"." sentinel, realtime fields partly present), the pipeline writes the
two-column CSV with one line per observation. -/
theorem csv_columns_rows_and_metadata_witness :
    processSeries "Alpha Series" "AS1" (.payload (some demoObs)) =
      (.written "data/alpha_series.csv" "date,AS1\n2020-01-01,3.5\n2020-02-01,\n" 2, 1) := by
  obtain ⟨heq, hlen, hinv⟩ :=
    csv_columns_rows_and_metadata "Alpha Series" "AS1" demoObs (by decide) (by decide)
  rw [heq]
  rfl

/-- C2: an observation value that is not parseable as a number — in particular
the sentinel "." — is coerced to the missing marker rather than failing the
series (the outcome is still `written`, with all rows), the per-series missing
count is exactly the number of such coercions, and that count is what gets
added to the running `total_nas_found`. -/
theorem missing_sentinel_coerced (name seriesId : String) (obs : List Obs)
    (hne : obs ≠ []) (hd : ∀ o ∈ obs, (parseDate o.date).isSome) :
    parseNumeric "." = none ∧
    processSeries name seriesId (.payload (some obs)) =
      (.written (csvPath name)
        (csvContent seriesId (obs.map fun o => (o.date, parseNumeric o.value)))
        obs.length,
       (obs.filter (fun o => (parseNumeric o.value).isNone)).length) ∧
    (∀ rest env, env seriesId = .payload (some obs) →
      (runBatch ((name, seriesId) :: rest) env).2 =
        (obs.filter (fun o => (parseNumeric o.value).isNone)).length +
          (runBatch rest env).2) := by
  refine ⟨rfl, ?_, ?_⟩
  · rw [processSeries_clean name seriesId obs hne hd, missingCount_map]
  · intro rest env henv
    show (processSeries name seriesId (env seriesId)).2 + (runBatch rest env).2 = _
    rw [henv, processSeries_clean name seriesId obs hne hd]
    rw [missingCount_map]

/-- C2 witness: with the demo series (values "3.5" and "."), the running total
after that one series is 1 more than the total over no series. -/
theorem missing_sentinel_coerced_witness :
    (runBatch [("Alpha Series", "AS1")] demoEnv).2 =
      1 + (runBatch ([] : List (String × String)) demoEnv).2 := by
  have h := (missing_sentinel_coerced "Alpha Series" "AS1" demoObs
    (by decide) (by decide)).2.2 [] demoEnv rfl
  rw [h]
  rfl

/-- C3: the batch loop is total and isolating: every input series gets exactly
one outcome, each outcome (the model of that iteration's log line) depends
only on that series' own name, id and upstream response — so one series'
failure never changes another series' outcome nor aborts the batch — and the
run always ends with the final-summary line carrying the accumulated total of
missing values. -/
theorem per_series_isolation (series : List (String × String)) (env : String → Response) :
    (runBatch series env).1 =
      series.map (fun it => (it.1, (processSeries it.1 it.2 (env it.2)).1)) ∧
    (runBatch series env).1.length = series.length ∧
    (runBatch series env).2 =
      (series.map (fun it => (processSeries it.1 it.2 (env it.2)).2)).sum ∧
    finalSummary (runBatch series env).2 =
      "Total number of NA values found across all fetched series: " ++
        toString (runBatch series env).2 := by
  refine ⟨runBatch_outcomes series env, ?_, runBatch_total series env, rfl⟩
  rw [runBatch_outcomes series env, List.length_map]

/-- C4: a payload with no `observations` member, or with an empty list, is
skipped without an exception: the outcome is `noObservations` (whose log line
is the "No observations found" warning), no file is written, no missing values
are counted, and the loop proceeds to the next series unchanged. -/
theorem empty_observations_skipped (name seriesId : String) (obsOpt : Option (List Obs))
    (h : obsOpt = none ∨ obsOpt = some []) :
    processSeries name seriesId (.payload obsOpt) = (.noObservations, 0) ∧
    outcomeWrites (processSeries name seriesId (.payload obsOpt)).1 = [] ∧
    logLine seriesId Outcome.noObservations =
      "No observations found for series ID: " ++ seriesId ++
        " or response structure unexpected." ∧
    (∀ rest env, env seriesId = .payload obsOpt →
      runBatch ((name, seriesId) :: rest) env =
        ((name, Outcome.noObservations) :: (runBatch rest env).1,
          (runBatch rest env).2)) := by
  have hp : processSeries name seriesId (.payload obsOpt) = (.noObservations, 0) := by
    rcases h with h | h <;> subst h <;> rfl
  refine ⟨hp, by rw [hp]; rfl, rfl, ?_⟩
  intro rest env henv
  show ((name, (processSeries name seriesId (env seriesId)).1) :: (runBatch rest env).1,
    (processSeries name seriesId (env seriesId)).2 + (runBatch rest env).2) = _
  rw [henv, hp]
  show ((name, Outcome.noObservations) :: (runBatch rest env).1,
    0 + (runBatch rest env).2) = _
  rw [Nat.zero_add]

/-- C4 witness: an empty observations list yields the skip outcome. -/
theorem empty_observations_skipped_witness :
    processSeries "Alpha Series" "AS1" (.payload (some [])) = (.noObservations, 0) :=
  (empty_observations_skipped "Alpha Series" "AS1" (some []) (Or.inr rfl)).1

/-- C5: the post-cleaning skip tests only literal emptiness of the cleaned
table, so a series mixing valid numeric values and missing-coerced values is
still written in full: the outcome is `written` with one row per observation
(coercion filters nothing out), and every observation whose value failed
numeric coercion keeps its row with an empty value cell. -/
theorem mixed_series_written (name seriesId : String) (obs : List Obs)
    (hd : ∀ o ∈ obs, (parseDate o.date).isSome)
    (hsome : ∃ o ∈ obs, parseNumeric o.value ≠ none)
    (hmiss : ∃ o ∈ obs, parseNumeric o.value = none) :
    processSeries name seriesId (.payload (some obs)) =
      (.written (csvPath name)
        (csvContent seriesId (obs.map fun o => (o.date, parseNumeric o.value)))
        obs.length,
       missingCount (obs.map fun o => (o.date, parseNumeric o.value))) ∧
    (processSeries name seriesId (.payload (some obs))).1 ≠ .emptyAfterCleaning ∧
    (∀ (i : Nat) (o : Obs), obs[i]? = some o → parseNumeric o.value = none →
      (renderValues (obs.map fun o => parseNumeric o.value))[i]? = some "") := by
  have hne : obs ≠ [] := by
    obtain ⟨o, ho, _⟩ := hmiss
    intro hnil
    subst hnil
    exact absurd ho (List.not_mem_nil o)
  have hps := processSeries_clean name seriesId obs hne hd
  refine ⟨hps, by rw [hps]; simp, ?_⟩
  intro i o hio hnone
  have hall : ((obs.map fun o => parseNumeric o.value).all
      fun v => match v with | some p => p.intForm | none => false) = false := by
    obtain ⟨w, hw, hwn⟩ := hmiss
    have hmem : (none : Option PNum) ∈ obs.map fun o => parseNumeric o.value := by
      rw [← hwn]
      exact List.mem_map_of_mem _ hw
    cases hallc : ((obs.map fun o => parseNumeric o.value).all
        fun v => match v with | some p => p.intForm | none => false) with
    | false => rfl
    | true => exact absurd (List.all_eq_true.mp hallc _ hmem) (by simp)
  unfold renderValues
  rw [hall]
  simp only [Bool.false_eq_true, if_false]
  rw [List.getElem?_map, List.getElem?_map, hio]
  simp [hnone]

/-- C5 witness: in the demo series the second observation's "." value keeps
its row and renders as an empty cell. -/
theorem mixed_series_written_witness :
    (renderValues (demoObs.map fun o => parseNumeric o.value))[1]? = some "" :=
  (mixed_series_written "Alpha Series" "AS1" demoObs (by decide) (by decide)
      (by decide)).2.2 1 ⟨"2020-02-01", ".", none, none⟩ rfl rfl

/-- C6: end-to-end example: for the mapping sending "Unemployment Rate" to
UNRATE and an upstream payload with one observation (value "3.5", realtime
fields present), the run writes `data/unemployment_rate.csv` with exact
content `date,UNRATE\n2020-01-01,3.5\n` and leaves the running missing-value
total at 0. -/
theorem unrate_end_to_end :
    runBatch [("Unemployment Rate", "UNRATE")]
        (fun _ => .payload (some [⟨"2020-01-01", "3.5", some "x", some "y"⟩])) =
      ([("Unemployment Rate",
         .written "data/unemployment_rate.csv" "date,UNRATE\n2020-01-01,3.5\n" 1)],
       0) := rfl

/-- C7: every file the pipeline writes has the path
`data/<name lower-cased, spaces replaced by underscores>.csv`; no other
transformation of the display name is applied. -/
theorem written_path_normalized (name seriesId : String) (resp : Response)
    (p c : String) (r : Nat)
    (h : (processSeries name seriesId resp).1 = .written p c r) :
    p = "data/" ++
        String.mk (name.toList.map fun ch => if ch == ' ' then '_' else ch.toLower) ++
        ".csv" := by
  have hp : p = csvPath name := by
    cases resp with
    | transportError m => exact absurd h (by simp [processSeries])
    | jsonError m => exact absurd h (by simp [processSeries])
    | otherFailure m => exact absurd h (by simp [processSeries])
    | payload obsOpt =>
      cases obsOpt with
      | none => exact absurd h (by simp [processSeries])
      | some obs =>
        rw [processSeries] at h
        split at h
        · exact absurd h (by simp)
        · split at h
          · exact absurd h (by simp)
          · split at h
            · exact absurd h (by simp)
            · simp only [Outcome.written.injEq] at h
              exact h.1.symm
  rw [hp]
  rfl

/-- C7 witness: the UNRATE example writes to `data/unemployment_rate.csv`,
which is the normalized form of "Unemployment Rate". -/
theorem written_path_normalized_witness :
    "data/unemployment_rate.csv" =
      "data/" ++
        String.mk ("Unemployment Rate".toList.map
          fun ch => if ch == ' ' then '_' else ch.toLower) ++
        ".csv" :=
  written_path_normalized "Unemployment Rate" "UNRATE"
    (.payload (some [⟨"2020-01-01", "3.5", some "x", some "y"⟩]))
    "data/unemployment_rate.csv" "date,UNRATE\n2020-01-01,3.5\n" 1 rfl

/-- C8: the export is idempotent and deterministic in its artifact: with the
same series list and the same upstream responses, applying the run's writes a
second time (the rerun overwrites each file with the same path and content)
leaves the filesystem exactly as after the first run. -/
theorem rerun_overwrites_identically (series : List (String × String))
    (env : String → Response) (fs : FS) :
    applyWrites (applyWrites fs (runWrites series env)) (runWrites series env) =
      applyWrites fs (runWrites series env) := by
  funext q
  apply applyWrites_congr
  intro hq
  exact applyWrites_untouched fs (runWrites series env) q hq

theorem blank_cell_line (q : String) :
    q ++ "," ++ quoteField "" ++ "\n" = q ++ ",\n" := by
  apply String.ext
  simp only [String.data_append, List.append_assoc]
  congr 1

/-- C9 counterexample: a non-empty observations list whose single record has a
date field and a value field, yet no file is written — the date string does
not parse, so the series fails with a `ValueError` (`parseFailed`) before the
cleaned table exists; the claim "a file is written" does not hold for every
non-empty list of records with date and value fields. -/
theorem nonempty_records_counterexample :
    (([⟨"not-a-date", ".", none, none⟩] : List Obs) ≠ []) ∧
    processSeries "Some Series" "SID"
        (.payload (some [⟨"not-a-date", ".", none, none⟩])) =
      (.parseFailed "invalid date", 0) ∧
    outcomeWrites (processSeries "Some Series" "SID"
        (.payload (some [⟨"not-a-date", ".", none, none⟩]))).1 = [] :=
  ⟨by simp, rfl, rfl⟩

/-- C9 amended: whenever the observations list is a non-empty list of records
whose date strings parse, the post-cleaning emptiness branch is unreachable
(the outcome is never `emptyAfterCleaning`): numeric coercion replaces values
in place and never removes rows, so the cleaned table keeps one row per
observation and a file is written even when every value coerces to missing —
in which case the CSV's value column is entirely blank and the missing count
equals the number of observations. -/
theorem coercion_never_drops_rows (name seriesId : String) (obs : List Obs)
    (hne : obs ≠ []) (hd : ∀ o ∈ obs, (parseDate o.date).isSome) :
    (processSeries name seriesId (.payload (some obs))).1 ≠ .emptyAfterCleaning ∧
    processSeries name seriesId (.payload (some obs)) =
      (.written (csvPath name)
        (csvContent seriesId (obs.map fun o => (o.date, parseNumeric o.value)))
        obs.length,
       missingCount (obs.map fun o => (o.date, parseNumeric o.value))) ∧
    ((∀ o ∈ obs, parseNumeric o.value = none) →
      processSeries name seriesId (.payload (some obs)) =
        (.written (csvPath name)
          ("date," ++ quoteField seriesId ++ "\n" ++
            String.join (obs.map fun o => quoteField o.date ++ ",\n"))
          obs.length,
         obs.length)) := by
  have hps := processSeries_clean name seriesId obs hne hd
  refine ⟨by rw [hps]; simp, hps, ?_⟩
  intro hall
  have hvs : ∀ v ∈ obs.map (fun o => parseNumeric o.value), v = none := by
    intro v hv
    obtain ⟨o, ho, rfl⟩ := List.mem_map.mp hv
    exact hall o ho
  have hvne : obs.map (fun o => parseNumeric o.value) ≠ [] := by
    intro hnil
    exact hne (List.map_eq_nil_iff.mp hnil)
  have hcontent : csvContent seriesId (obs.map fun o => (o.date, parseNumeric o.value)) =
      "date," ++ quoteField seriesId ++ "\n" ++
        String.join (obs.map fun o => quoteField o.date ++ ",\n") := by
    rw [csvContent_map, renderValues_all_none _ hvne hvs, List.map_map,
      List.zipWith_map_right, zipWith_diag]
    congr 1
    apply congrArg
    exact List.map_congr_left (fun o ho => blank_cell_line (quoteField o.date))
  have hcount : missingCount (obs.map fun o => (o.date, parseNumeric o.value)) =
      obs.length := by
    rw [missingCount_map]
    have : obs.filter (fun o => (parseNumeric o.value).isNone) = obs :=
      List.filter_eq_self.mpr (fun o ho => by rw [hall o ho]; rfl)
    rw [this]
  rw [hps, hcontent, hcount]

/-- C9 amended witness: a one-observation series whose only value is the "."
sentinel still writes a file, with a blank value cell and missing count 1. -/
theorem coercion_never_drops_rows_witness :
    processSeries "Beta Series" "BS2"
        (.payload (some [⟨"2021-03-04", ".", none, none⟩])) =
      (.written "data/beta_series.csv" "date,BS2\n2021-03-04,\n" 1, 1) := by
  have h := (coercion_never_drops_rows "Beta Series" "BS2"
      [⟨"2021-03-04", ".", none, none⟩] (by simp) (by decide)).2.2 (by decide)
  rw [h]
  rfl

/-- C10: the running `total_nas_found` after any prefix of the input mapping
equals the sum of the per-series missing counts over that prefix, it is
monotonically non-decreasing as the prefix grows, and any series that fails
before the coercion step (transport, JSON/date parse, unexpected failure) or
is skipped for an absent/empty observations list contributes zero. -/
theorem running_total_invariant (series : List (String × String))
    (env : String → Response) :
    (∀ n : Nat, (runBatch (series.take n) env).2 =
      ((series.take n).map (fun it => (processSeries it.1 it.2 (env it.2)).2)).sum) ∧
    (∀ n m : Nat, n ≤ m →
      (runBatch (series.take n) env).2 ≤ (runBatch (series.take m) env).2) ∧
    (∀ (name seriesId : String) (resp : Response),
      ((processSeries name seriesId resp).1 = .noObservations ∨
       (∃ msg, (processSeries name seriesId resp).1 = .transportFailed msg) ∨
       (∃ msg, (processSeries name seriesId resp).1 = .parseFailed msg) ∨
       (∃ msg, (processSeries name seriesId resp).1 = .unexpectedFailed msg)) →
      (processSeries name seriesId resp).2 = 0) := by
  refine ⟨fun n => runBatch_total _ env, ?_, ?_⟩
  · intro n m hnm
    rw [runBatch_total, runBatch_total, List.map_take, List.map_take]
    generalize series.map (fun it => (processSeries it.1 it.2 (env it.2)).2) = l
    calc (l.take n).sum = ((l.take m).take n).sum := by
          rw [List.take_take, Nat.min_eq_left hnm]
      _ ≤ ((l.take m).take n).sum + ((l.take m).drop n).sum := Nat.le_add_right _ _
      _ = (l.take m).sum := by rw [← List.sum_append, List.take_append_drop]
  · intro name seriesId resp hfail
    cases resp with
    | transportError m => rfl
    | jsonError m => rfl
    | otherFailure m => rfl
    | payload obsOpt =>
      cases obsOpt with
      | none => rfl
      | some obs =>
        cases hoe : obs.isEmpty with
        | true => simp [processSeries, hoe]
        | false =>
          cases hc : cleanObs obs with
          | none => simp [processSeries, hoe, hc]
          | some rows =>
            cases hre : rows.isEmpty with
            | true =>
              have hrn : rows = [] := List.isEmpty_iff.mp hre
              subst hrn
              simp [processSeries, hoe, hc, missingCount]
            | false =>
              exfalso
              simp [processSeries, hoe, hc, hre] at hfail

/-- C10 witness: over the two-series demo batch, the total after the first
series is at most the total after both. -/
theorem running_total_invariant_witness :
    (runBatch (demoSeries.take 1) demoEnv).2 ≤ (runBatch (demoSeries.take 2) demoEnv).2 :=
  (running_total_invariant demoSeries demoEnv).2.1 1 2 (by decide)

end FredFetch
